import Mathlib

/-!
Verification of the SmartInbox semantic e-mail classifier.

Shallow embedding of `backend/app/services/semantic_classifier.py` and
`backend/app/services/local_embeddings.py`.

Modelling conventions:
* Python floats are modelled as exact rationals (`ℚ`); the only genuinely
  irrational operation, the Euclidean vector norm used by
  `cosine_similarity`, is modelled over `ℝ` with `Real.sqrt`.
* The sentence-transformer model is an external capability.  It is modelled
  as an abstract function `embed : String → List ℚ`; per the provider
  contract in the spec (§6), its batch interface is the element-wise map of
  the single interface, which is exactly how `local_embeddings.py` uses
  `model.encode`.  The cosine-similarity function consumed by the classifier
  is likewise passed as an abstract parameter `sim`, so every theorem below
  holds for the actual similarity function in particular.
* `SemanticEmailClassifier`'s mutable state (`_category_embeddings`,
  `_initialized`) becomes an explicit `ClassifierState` record threaded
  through the operations; each operation additionally returns the number of
  calls made to the embedding model, so that "no provider call is made" is
  a provable statement.
* Python `dict` preserves insertion order; the registry is an association
  list.  Python `int()` truncates toward zero (`pyInt` below); Python `max`
  over an iterable with a key returns the first element attaining the
  maximum (`pyMaxBySnd` below).
-/

/-- Python `int(q)`: truncation toward zero. -/
def pyInt (q : ℚ) : ℤ :=
  if q < 0 then ⌈q⌉ else ⌊q⌋

/-- One message, the field-tuple consumed by `classify` / `classify_batch`
(`classify_batch` reads the four keys of each dict with default `""`). -/
structure Email where
  subject : String
  sender : String
  content : String
  senderName : String
deriving DecidableEq

/-- `ClassificationResult` from `semantic_classifier.py`.  Python's
`list(set(labels))` loses order, so `labels` is a `Finset`. -/
structure ClassificationResult where
  category : String
  confidence : ℤ
  labels : Finset String
  reason : String
deriving DecidableEq

/-- Mutable instance state of `SemanticEmailClassifier`:
`_category_embeddings` (an insertion-ordered dict) and `_initialized`. -/
structure ClassifierState where
  categoryEmbeddings : List (String × List ℚ)
  ready : Bool
deriving DecidableEq

/-- The state built by `SemanticEmailClassifier.__init__`. -/
def initialState : ClassifierState := ⟨[], false⟩

/-- `SemanticEmailClassifier.CATEGORY_DESCRIPTIONS`, in dict insertion
order.  `"primary"` has no entry: it is never scored. -/
def CATEGORY_DESCRIPTIONS : List (String × List String) :=
  [("work",
    ["Professional work email about meetings, projects, deadlines",
     "Office communication regarding tasks, assignments, reports",
     "Business correspondence with colleagues and managers",
     "Job-related emails about interviews, recruitment, career",
     "Team collaboration on Slack, Jira, GitHub, pull requests",
     "Corporate announcements and company updates",
     "Calendar invites and meeting schedules"]),
   ("personal",
    ["Personal email from friends and family",
     "Casual conversation about life, plans, gatherings",
     "Birthday wishes, congratulations, personal news",
     "Vacation plans, trip discussions, photo sharing",
     "Catching up with old friends, reunion planning",
     "Personal matters and family discussions"]),
   ("social",
    ["Social media notifications from Facebook, Twitter, LinkedIn",
     "Someone liked, commented, or shared your post",
     "New follower or friend request notification",
     "Social network activity and engagement alerts",
     "Instagram, TikTok, YouTube notifications",
     "Connection requests and social updates"]),
   ("promotions",
    ["Marketing email with sales, discounts, special offers",
     "Promotional content about deals and limited time offers",
     "E-commerce notifications about new products",
     "Coupon codes, vouchers, and promotional campaigns",
     "Black Friday, holiday sales, clearance events",
     "Shopping recommendations and product suggestions"]),
   ("updates",
    ["Account security alerts and password notifications",
     "Service updates and system notifications",
     "Order confirmation, shipping, and delivery updates",
     "App updates and software notifications",
     "Account verification and login alerts",
     "Subscription and service status updates"]),
   ("finance",
    ["Bank statement and financial transaction alerts",
     "Payment confirmation, invoice, and billing",
     "Credit card and banking notifications",
     "Investment updates and financial reports",
     "Tax documents and financial statements",
     "Money transfer and payment receipts"]),
   ("newsletters",
    ["Newsletter digest and content roundup",
     "Weekly or daily news briefing",
     "Blog updates and article recommendations",
     "Industry news and curated content",
     "Substack, Medium, and publication updates",
     "Educational content and learning resources"])]

/-- The seven scored categories in the fixed taxonomy order (dict insertion
order of `CATEGORY_DESCRIPTIONS`). -/
def taxonomyOrder : List String :=
  ["work", "personal", "social", "promotions", "updates", "finance", "newsletters"]

/-- `local_embeddings.get_embeddings_batch`: returns `[]` for an empty input
without touching the model; otherwise one `model.encode` call which, by the
provider contract (spec §6), is the element-wise map of single embedding. -/
def getEmbeddingsBatch (embed : String → List ℚ) (texts : List String) : List (List ℚ) :=
  if texts.isEmpty then [] else texts.map embed

/-- Number of calls made to the embedding model by
`get_embeddings_batch` on the given input: none for an empty list, one
batched `model.encode` call otherwise. -/
def getEmbeddingsBatchCalls (texts : List String) : Nat :=
  if texts.isEmpty then 0 else 1

/-- Python dict assignment `d[k] = v`: replaces the value in place if the
key exists, otherwise appends the pair (dicts preserve insertion order). -/
def dictInsert (d : List (String × List ℚ)) (k : String) (v : List ℚ) :
    List (String × List ℚ) :=
  if d.any (fun p => p.1 = k) then
    d.map (fun p => if p.1 = k then (k, v) else p)
  else
    d ++ [(k, v)]

/-- `SemanticEmailClassifier.initialize_category_embeddings`: no-op when
already ready; otherwise joins each category's descriptions with `" "`,
embeds all seven texts in one batch call, and stores the vectors keyed by
category name.  Returns the new state and the number of model calls. -/
def initCategoryEmbeddings (embed : String → List ℚ) (st : ClassifierState) :
    ClassifierState × Nat :=
  if st.ready then (st, 0)
  else
    let categoryTexts := CATEGORY_DESCRIPTIONS.map (fun p => String.intercalate " " p.2)
    let categoryNames := CATEGORY_DESCRIPTIONS.map Prod.fst
    let embeddings := getEmbeddingsBatch embed categoryTexts
    let newEmbeds := (categoryNames.zip embeddings).foldl
      (fun d p => dictInsert d p.1 p.2) st.categoryEmbeddings
    (⟨newEmbeds, true⟩, getEmbeddingsBatchCalls categoryTexts)

/-- `SemanticEmailClassifier._prepare_email_text`, written exactly as the
Python accumulates `parts` (Python string truthiness is non-emptiness). -/
def prepareEmailText (subject sender content senderName : String) : String :=
  let parts : List String := []
  let parts := if subject ≠ "" then parts ++ ["Subject: " ++ subject] else parts
  let parts :=
    if senderName ≠ "" then parts ++ ["From: " ++ senderName]
    else if sender ≠ "" then parts ++ ["From: " ++ (sender.splitOn "@").headD ""]
    else parts
  let parts := if content ≠ "" then parts ++ ["Content: " ++ content.take 1500] else parts
  String.intercalate "\n" parts

/-- The per-category similarity loop shared verbatim by `classify` and
`classify_batch`: the ordered dict `category → similarity`. -/
def similaritiesOf (sim : List ℚ → List ℚ → ℚ) (catEmbeds : List (String × List ℚ))
    (emailEmbedding : List ℚ) : List (String × ℚ) :=
  catEmbeds.map (fun p => (p.1, sim emailEmbedding p.2))

/-- Python `max(similarities, key=similarities.get)` on an insertion-ordered
dict: fold that replaces the running best only on a strictly larger value,
so the first key attaining the maximum wins.  (Python raises on an empty
dict; the registry always has seven entries when this runs, so the default
is never relevant.) -/
def pyMaxBySnd (l : List (String × ℚ)) : String × ℚ :=
  l.foldl (fun best p => if best.2 < p.2 then p else best) (l.headD ("", 0))

/-- Line 159 / 260: `int(min(95, max(0, best_similarity * 150)))`. -/
def confidenceFromSimilarity (s : ℚ) : ℤ :=
  pyInt (min 95 (max 0 (s * 150)))

/-- Stable insertion of a pair into a value-descending sorted list (an
element goes before the first strictly-smaller value, keeping the original
order among equal values, as Python's stable `sorted(..., reverse=True)`). -/
def insertDesc (x : String × ℚ) : List (String × ℚ) → List (String × ℚ)
  | [] => [x]
  | y :: ys => if x.2 < y.2 then y :: insertDesc x ys else x :: y :: ys

/-- Python `sorted(similarities.items(), key=value, reverse=True)`: stable
sort by value, descending. -/
def sortDesc (l : List (String × ℚ)) : List (String × ℚ) :=
  l.foldr insertDesc []

/-- Python `f"{q:.2f}"` on an exact rational: two-decimal fixed-point. -/
def formatRat2 (q : ℚ) : String :=
  let n := round (q * 100)
  let sign := if n < 0 then "-" else ""
  let m := n.natAbs
  let frac := m % 100
  sign ++ toString (m / 100) ++ "." ++ (if frac < 10 then "0" else "") ++ toString frac

/-- `SemanticEmailClassifier.classify` (lines 124–181).  Returns the result,
the state after the call, and the number of embedding-model calls made. -/
def classify (embed : String → List ℚ) (sim : List ℚ → List ℚ → ℚ)
    (subject sender content senderName : String) (st : ClassifierState) :
    ClassificationResult × ClassifierState × Nat :=
  let initP := initCategoryEmbeddings embed st
  let st1 := initP.1
  let emailText := prepareEmailText subject sender content senderName
  let emailEmbedding := embed emailText
  let similarities := similaritiesOf sim st1.categoryEmbeddings emailEmbedding
  let best := pyMaxBySnd similarities
  let confidence0 := confidenceFromSimilarity best.2
  let bestCategory := if confidence0 < 30 then "primary" else best.1
  let confidence := if confidence0 < 30 then 50 else confidence0
  let labels :=
    (bestCategory ::
      (similarities.filter (fun p => p.1 ≠ bestCategory ∧ 40 ≤ p.2 * 150)).map Prod.fst).toFinset
  let top3 := (sortDesc similarities).take 3
  let reason :=
    "Semantic(local): " ++
      String.intercalate ", " (top3.map (fun p => p.1 ++ "=" ++ formatRat2 p.2))
  (⟨bestCategory, confidence, labels, reason⟩, st1, initP.2 + 1)

/-- `SemanticEmailClassifier.classify_batch` (lines 203–285): early return
on an empty list before any initialization; otherwise one batched embedding
call, then the per-message decision logic duplicated from `classify`. -/
def classifyBatch (embed : String → List ℚ) (sim : List ℚ → List ℚ → ℚ)
    (emails : List Email) (st : ClassifierState) :
    List ClassificationResult × ClassifierState × Nat :=
  if emails.isEmpty then ([], st, 0)
  else
    let initP := initCategoryEmbeddings embed st
    let st1 := initP.1
    let emailTexts := emails.map
      (fun e => prepareEmailText e.subject e.sender e.content e.senderName)
    let allEmbeddings := getEmbeddingsBatch embed emailTexts
    let results := allEmbeddings.map (fun emailEmbedding =>
      let similarities := similaritiesOf sim st1.categoryEmbeddings emailEmbedding
      let best := pyMaxBySnd similarities
      let confidence0 := confidenceFromSimilarity best.2
      let bestCategory := if confidence0 < 30 then "primary" else best.1
      let confidence := if confidence0 < 30 then 50 else confidence0
      let labels :=
        (bestCategory ::
          (similarities.filter (fun p => p.1 ≠ bestCategory ∧ 40 ≤ p.2 * 150)).map Prod.fst).toFinset
      let top3 := (sortDesc similarities).take 3
      let reason :=
        "Semantic(local): " ++
          String.intercalate ", " (top3.map (fun p => p.1 ++ "=" ++ formatRat2 p.2))
      (⟨bestCategory, confidence, labels, reason⟩ : ClassificationResult))
    (results, st1, initP.2 + getEmbeddingsBatchCalls emailTexts)

/-- `local_embeddings.cosine_similarity`: dot product over equal-index
pairs (`np.dot`). -/
def dotProduct : List ℚ → List ℚ → ℚ
  | x :: xs, y :: ys => x * y + dotProduct xs ys
  | _, _ => 0

/-- Sum of squares of the entries, the square of `np.linalg.norm`. -/
def normSq : List ℚ → ℚ
  | [] => 0
  | x :: xs => x * x + normSq xs

/-- `np.linalg.norm`: Euclidean magnitude. -/
noncomputable def magnitude (v : List ℚ) : ℝ :=
  Real.sqrt ((normSq v : ℚ) : ℝ)

open Classical in
/-- `local_embeddings.cosine_similarity`: returns `0.0` when either norm is
zero, otherwise the dot product divided by the product of the norms. -/
noncomputable def cosine_similarity (v1 v2 : List ℚ) : ℝ :=
  if magnitude v1 = 0 ∨ magnitude v2 = 0 then 0
  else ((dotProduct v1 v2 : ℚ) : ℝ) / (magnitude v1 * magnitude v2)

/-- The spec's confidence formula, as claimed:
`clamp(0, 95, round(best_similarity * 150))` with round-to-nearest. -/
def specRoundedConfidence (s : ℚ) : ℤ :=
  min 95 (max 0 (round (s * 150)))

/-- The spec's text-composition contract, stated as written: the present
lines, in order, joined by newlines. -/
def specEmailText (subject sender content senderName : String) : String :=
  String.intercalate "\n"
    ((if subject = "" then [] else ["Subject: " ++ subject]) ++
     (if senderName ≠ "" then ["From: " ++ senderName]
      else if sender ≠ "" then ["From: " ++ (sender.splitOn "@").headD ""]
      else []) ++
     (if content = "" then [] else ["Content: " ++ content.take 1500]))

lemma classifyBatch_results (embed : String → List ℚ) (sim : List ℚ → List ℚ → ℚ)
    (emails : List Email) (st : ClassifierState) (h : emails ≠ []) :
    (classifyBatch embed sim emails st).1 =
      emails.map (fun e => (classify embed sim e.subject e.sender e.content e.senderName st).1) := by
  have hne : emails.isEmpty = false := by
    cases emails with
    | nil => exact absurd rfl h
    | cons a l => rfl
  have htne : (emails.map
      (fun e => prepareEmailText e.subject e.sender e.content e.senderName)).isEmpty = false := by
    cases emails with
    | nil => exact absurd rfl h
    | cons a l => rfl
  unfold classifyBatch
  rw [hne]
  simp only [Bool.false_eq_true, if_false, getEmbeddingsBatch, htne, List.map_map]
  rfl

lemma foldMax_spec (t : List (String × ℚ)) : ∀ b : String × ℚ,
    (t.foldl (fun best p => if best.2 < p.2 then p else best) b = b ∧ ∀ p ∈ t, p.2 ≤ b.2) ∨
    (∃ j, ∃ hj : j < t.length,
      t.foldl (fun best p => if best.2 < p.2 then p else best) b = t.get ⟨j, hj⟩ ∧
      b.2 < (t.get ⟨j, hj⟩).2 ∧
      (∀ k, ∀ hk : k < t.length, k < j →
        (t.get ⟨k, hk⟩).2 < (t.foldl (fun best p => if best.2 < p.2 then p else best) b).2) ∧
      (∀ p ∈ t, p.2 ≤ (t.foldl (fun best p => if best.2 < p.2 then p else best) b).2)) := by
  induction t with
  | nil => intro b; left; exact ⟨rfl, by intro p hp; cases hp⟩
  | cons q t ih =>
    intro b
    by_cases hq : b.2 < q.2
    · have hstep : (q :: t).foldl (fun best p => if best.2 < p.2 then p else best) b
        = t.foldl (fun best p => if best.2 < p.2 then p else best) q := by
        simp [List.foldl_cons, if_pos hq]
      rcases ih q with ⟨heq, hall⟩ | ⟨j, hj, heq, hgt, hfirst, hall⟩
      · right
        refine ⟨0, Nat.succ_pos _, hstep.trans heq, hq, ?_, ?_⟩
        · intro k hk hk0; exact absurd hk0 (Nat.not_lt_zero k)
        · intro p hp
          rw [hstep, heq]
          rcases List.mem_cons.1 hp with rfl | hp
          · exact le_refl _
          · exact hall p hp
      · right
        refine ⟨j + 1, Nat.succ_lt_succ hj, hstep.trans heq, lt_trans hq hgt, ?_, ?_⟩
        · intro k hk hkj
          rw [hstep]
          cases k with
          | zero =>
            show q.2 < _
            rw [heq]; exact hgt
          | succ k' =>
            exact hfirst k' (by omega) (by omega)
        · intro p hp
          rw [hstep]
          rcases List.mem_cons.1 hp with rfl | hp
          · rw [heq]; exact le_of_lt hgt
          · exact hall p hp
    · have hstep : (q :: t).foldl (fun best p => if best.2 < p.2 then p else best) b
        = t.foldl (fun best p => if best.2 < p.2 then p else best) b := by
        simp [List.foldl_cons, if_neg hq]
      rcases ih b with ⟨heq, hall⟩ | ⟨j, hj, heq, hgt, hfirst, hall⟩
      · left
        refine ⟨hstep.trans heq, ?_⟩
        intro p hp
        rcases List.mem_cons.1 hp with rfl | hp
        · exact le_of_not_lt hq
        · exact hall p hp
      · right
        refine ⟨j + 1, Nat.succ_lt_succ hj, hstep.trans heq, hgt, ?_, ?_⟩
        · intro k hk hkj
          rw [hstep]
          cases k with
          | zero =>
            show q.2 < _
            exact lt_of_le_of_lt (le_of_not_lt hq) (by rw [heq]; exact hgt)
          | succ k' =>
            exact hfirst k' (by omega) (by omega)
        · intro p hp
          rw [hstep]
          rcases List.mem_cons.1 hp with rfl | hp
          · exact le_of_lt (lt_of_le_of_lt (le_of_not_lt hq) (by rw [heq]; exact hgt))
          · exact hall p hp

lemma pyMaxBySnd_spec (l : List (String × ℚ)) (hl : l ≠ []) :
    ∃ j, ∃ hj : j < l.length, pyMaxBySnd l = l.get ⟨j, hj⟩ ∧
      (∀ p ∈ l, p.2 ≤ (pyMaxBySnd l).2) ∧
      (∀ k, ∀ hk : k < l.length, k < j → (l.get ⟨k, hk⟩).2 < (pyMaxBySnd l).2) := by
  cases l with
  | nil => exact absurd rfl hl
  | cons q t =>
    have hself : pyMaxBySnd (q :: t)
        = t.foldl (fun best p => if best.2 < p.2 then p else best) q := by
      show (q :: t).foldl _ ((q :: t).headD ("", 0)) = _
      simp [List.foldl_cons, lt_irrefl]
    rcases foldMax_spec t q with ⟨heq, hall⟩ | ⟨j, hj, heq, hgt, hfirst, hall⟩
    · refine ⟨0, Nat.succ_pos _, hself.trans heq, ?_, ?_⟩
      · intro p hp
        rw [hself, heq]
        rcases List.mem_cons.1 hp with rfl | hp
        · exact le_refl _
        · exact hall p hp
      · intro k hk hk0; exact absurd hk0 (Nat.not_lt_zero k)
    · refine ⟨j + 1, Nat.succ_lt_succ hj, hself.trans heq, ?_, ?_⟩
      · intro p hp
        rw [hself]
        rcases List.mem_cons.1 hp with rfl | hp
        · rw [heq]; exact le_of_lt hgt
        · exact hall p hp
      · intro k hk hkj
        rw [hself]
        cases k with
        | zero =>
          show q.2 < _
          rw [heq]; exact hgt
        | succ k' =>
          exact hfirst k' (by omega) (by omega)

lemma pyMaxBySnd_mem (l : List (String × ℚ)) (hl : l ≠ []) : pyMaxBySnd l ∈ l := by
  rcases pyMaxBySnd_spec l hl with ⟨j, hj, heq, -, -⟩
  rw [heq]; exact List.get_mem l j hj

/-- Claim C9: `classify_batch` on the empty list returns the empty list, leaves
the state untouched (no category-registry initialization), and makes no
call to the embedding model. -/
theorem classify_batch_empty (embed : String → List ℚ) (sim : List ℚ → List ℚ → ℚ)
    (st : ClassifierState) :
    classifyBatch embed sim [] st = ([], st, 0) := rfl

/-- Claim C1: for every valid index `i`, the `i`-th result of `classify_batch`
equals the result of `classify` on the fields of the `i`-th message, given
the same provider and the same starting classifier state. -/
theorem classify_batch_agrees_with_classify (embed : String → List ℚ)
    (sim : List ℚ → List ℚ → ℚ) (emails : List Email) (st : ClassifierState)
    (i : Nat) (h : i < emails.length) :
    (classifyBatch embed sim emails st).1[i]? =
      some ((classify embed sim (emails.get ⟨i, h⟩).subject (emails.get ⟨i, h⟩).sender
        (emails.get ⟨i, h⟩).content (emails.get ⟨i, h⟩).senderName st).1) := by
  have hne : emails ≠ [] := by
    intro he
    rw [he] at h
    exact absurd h (by simp)
  rw [classifyBatch_results embed sim emails st hne, List.getElem?_map,
    List.getElem?_eq_getElem h]
  simp [List.get_eq_getElem]

/-- Witness for C1 at a concrete one-element batch. -/
theorem classify_batch_agrees_with_classify_witness :
    (0 : Nat) < ([⟨"hi", "a@b", "text", ""⟩] : List Email).length ∧
    (classifyBatch (fun _ => [(1 : ℚ)]) (fun _ _ => (1 : ℚ)) [⟨"hi", "a@b", "text", ""⟩]
        initialState).1[0]? =
      some ((classify (fun _ => [(1 : ℚ)]) (fun _ _ => (1 : ℚ)) "hi" "a@b" "text" ""
        initialState).1) :=
  ⟨by decide,
   classify_batch_agrees_with_classify (fun _ => [(1 : ℚ)]) (fun _ _ => (1 : ℚ))
     [⟨"hi", "a@b", "text", ""⟩] initialState 0 (by decide)⟩

set_option maxRecDepth 10000 in
/-- Claim C3, counterexample: with best similarity `317/1500` the code assigns
confidence `int(31.7) = 31`, while the claimed formula
`clamp(0, 95, round(31.7))` gives `32`. -/
theorem confidence_conversion_round_cex :
    (classify (fun _ => []) (fun _ _ => (317/1500 : ℚ)) "" "" "" "" initialState).1.confidence
      ≠ specRoundedConfidence (317/1500) := by
  with_unfolding_all decide

/-- Claim C3, amended: the confidence assigned from the best similarity `s` is
`clamp(0, 95, int(s * 150))` with Python `int` truncation toward zero
(floor once clamped below at `0`), not round-to-nearest. -/
theorem confidence_conversion_amended (s : ℚ) :
    confidenceFromSimilarity s = min 95 (max 0 (pyInt (s * 150))) := by
  unfold confidenceFromSimilarity pyInt
  have h0 : (0 : ℚ) ≤ min 95 (max 0 (s * 150)) :=
    le_min (by norm_num) (le_max_left 0 (s * 150))
  rw [if_neg (not_lt.2 h0)]
  by_cases hneg : s * 150 < 0
  · rw [if_pos hneg]
    have h1 : max (0 : ℚ) (s * 150) = 0 := max_eq_left (le_of_lt hneg)
    have h2 : (⌈s * 150⌉ : ℤ) ≤ 0 := Int.ceil_le.2 (by exact_mod_cast le_of_lt hneg)
    rw [h1, min_eq_right (by norm_num : (0:ℚ) ≤ 95), Int.floor_zero]
    omega
  · rw [if_neg hneg]
    push_neg at hneg
    have h1 : max (0 : ℚ) (s * 150) = s * 150 := max_eq_right hneg
    have h2 : (0 : ℤ) ≤ ⌊s * 150⌋ := Int.floor_nonneg.2 hneg
    have h95 : (⌊(95 : ℚ)⌋ : ℤ) = 95 := by norm_num
    rw [h1, max_eq_right h2]
    rcases le_total (s * 150) 95 with hle | hge
    · rw [min_eq_right hle, min_eq_right (h95 ▸ Int.floor_le_floor hle)]
    · rw [min_eq_left hge, min_eq_left (h95 ▸ Int.floor_le_floor hge), h95]

/-- Claim C6: the composite text embedded for a message is, in order, the
`Subject:` line (omitted when the subject is empty), the `From:` line
(display name if present, else the local part of the address, omitted when
both are empty), and the `Content:` line truncated to 1500 characters
(omitted when the content is empty), joined by newlines. -/
theorem prepare_email_text_spec (subject sender content senderName : String) :
    prepareEmailText subject sender content senderName
      = specEmailText subject sender content senderName := by
  unfold prepareEmailText specEmailText
  by_cases h1 : subject = "" <;> by_cases h2 : senderName = "" <;>
    by_cases h3 : sender = "" <;> by_cases h4 : content = "" <;>
      simp [h1, h2, h3, h4]

/-- Claim C4: when the converted confidence of the best similarity is below 30
the result is exactly `(category = "primary", confidence = 50)`; at 30 or
above no override happens and the maximum-similarity category is kept. -/
theorem confidence_fallback (embed : String → List ℚ) (sim : List ℚ → List ℚ → ℚ)
    (subject sender content senderName : String) (st : ClassifierState)
    (sims : List (String × ℚ)) (conf0 : ℤ)
    (hsims : sims = similaritiesOf sim (initCategoryEmbeddings embed st).1.categoryEmbeddings
      (embed (prepareEmailText subject sender content senderName)))
    (hconf : conf0 = confidenceFromSimilarity (pyMaxBySnd sims).2) :
    (conf0 < 30 →
      (classify embed sim subject sender content senderName st).1.category = "primary" ∧
      (classify embed sim subject sender content senderName st).1.confidence = 50) ∧
    (30 ≤ conf0 →
      (classify embed sim subject sender content senderName st).1.category
          = (pyMaxBySnd sims).1 ∧
      (classify embed sim subject sender content senderName st).1.confidence = conf0) := by
  subst hsims
  subst hconf
  constructor
  · intro hlt
    constructor <;> simp [classify, hlt]
  · intro hge
    have hlt : ¬ (confidenceFromSimilarity
        (pyMaxBySnd (similaritiesOf sim
          (initCategoryEmbeddings embed st).1.categoryEmbeddings
          (embed (prepareEmailText subject sender content senderName)))).2 < 30) :=
      not_lt.2 hge
    constructor <;> simp [classify, hlt]

set_option maxRecDepth 10000 in
/-- Witness for C4: with the all-zero similarity function the converted
confidence is 0, so the fallback fires. -/
theorem confidence_fallback_witness :
    confidenceFromSimilarity
        (pyMaxBySnd (similaritiesOf (fun _ _ => (0 : ℚ))
          (initCategoryEmbeddings (fun _ => []) initialState).1.categoryEmbeddings
          ((fun _ : String => ([] : List ℚ)) (prepareEmailText "" "" "" "")))).2 < 30 ∧
    (classify (fun _ => []) (fun _ _ => (0 : ℚ)) "" "" "" "" initialState).1.category
      = "primary" :=
  ⟨by with_unfolding_all decide,
   ((confidence_fallback (fun _ => []) (fun _ _ => (0 : ℚ)) "" "" "" "" initialState _ _
      rfl rfl).1 (by with_unfolding_all decide)).1⟩

/-- After initialization from the fresh state, the registry keys are the
seven category names in dict insertion order; `"primary"` is absent. -/
lemma initRegistry_names (embed : String → List ℚ) :
    (initCategoryEmbeddings embed initialState).1.categoryEmbeddings.map Prod.fst
      = taxonomyOrder := rfl

/-- The similarity dict built from a registry lists the registry keys in
order. -/
lemma similaritiesOf_names (sim : List ℚ → List ℚ → ℚ) (catEmbeds : List (String × List ℚ))
    (e : List ℚ) :
    (similaritiesOf sim catEmbeds e).map Prod.fst = catEmbeds.map Prod.fst := by
  unfold similaritiesOf
  rw [List.map_map]
  rfl

/-- Claim C7: category selection is deterministic.  Over the registry built from
the fresh state, the similarity dict lists exactly the seven scored
categories in taxonomy order; the selected pair is an element of maximum
similarity; `"primary"` is never a candidate; and every category strictly
earlier in the list than the selected one has strictly smaller similarity,
so ties go to the category first in taxonomy order. -/
theorem category_selection_deterministic (embed : String → List ℚ)
    (sim : List ℚ → List ℚ → ℚ) (e : List ℚ) (sims : List (String × ℚ))
    (hsims : sims = similaritiesOf sim
      (initCategoryEmbeddings embed initialState).1.categoryEmbeddings e) :
    sims.map Prod.fst = taxonomyOrder ∧
    (pyMaxBySnd sims).1 ∈ taxonomyOrder ∧
    (pyMaxBySnd sims).1 ≠ "primary" ∧
    (∀ p ∈ sims, p.2 ≤ (pyMaxBySnd sims).2) ∧
    ∃ j, ∃ hj : j < sims.length, pyMaxBySnd sims = sims.get ⟨j, hj⟩ ∧
      ∀ k, ∀ hk : k < sims.length, k < j → (sims.get ⟨k, hk⟩).2 < (pyMaxBySnd sims).2 := by
  have hnames : sims.map Prod.fst = taxonomyOrder := by
    rw [hsims, similaritiesOf_names, initRegistry_names]
  have hne : sims ≠ [] := by
    intro h
    rw [h] at hnames
    exact absurd hnames (by simp [taxonomyOrder])
  have hmem : pyMaxBySnd sims ∈ sims := pyMaxBySnd_mem sims hne
  have hfst : (pyMaxBySnd sims).1 ∈ taxonomyOrder := by
    rw [← hnames]
    exact List.mem_map_of_mem Prod.fst hmem
  refine ⟨hnames, hfst, ?_, ?_⟩
  · intro hpr
    rw [hpr] at hfst
    exact absurd hfst (by decide)
  · rcases pyMaxBySnd_spec sims hne with ⟨j, hj, heq, hmax, hfirst⟩
    exact ⟨hmax, j, hj, heq, hfirst⟩

/-- Witness for C7 at a concrete embedding and similarity function. -/
theorem category_selection_deterministic_witness :
    (pyMaxBySnd (similaritiesOf (fun _ _ => (1 : ℚ))
        (initCategoryEmbeddings (fun _ => []) initialState).1.categoryEmbeddings [])).1
      ∈ taxonomyOrder :=
  (category_selection_deterministic (fun _ => []) (fun _ _ => (1 : ℚ)) [] _ rfl).2.1

lemma classify_confidence_eq (embed : String → List ℚ) (sim : List ℚ → List ℚ → ℚ)
    (subject sender content senderName : String) (st : ClassifierState) :
    (classify embed sim subject sender content senderName st).1.confidence
      = (if confidenceFromSimilarity (pyMaxBySnd (similaritiesOf sim
            (initCategoryEmbeddings embed st).1.categoryEmbeddings
            (embed (prepareEmailText subject sender content senderName)))).2 < 30 then 50
         else confidenceFromSimilarity (pyMaxBySnd (similaritiesOf sim
            (initCategoryEmbeddings embed st).1.categoryEmbeddings
            (embed (prepareEmailText subject sender content senderName)))).2) := rfl

lemma classify_category_eq (embed : String → List ℚ) (sim : List ℚ → List ℚ → ℚ)
    (subject sender content senderName : String) (st : ClassifierState) :
    (classify embed sim subject sender content senderName st).1.category
      = (if confidenceFromSimilarity (pyMaxBySnd (similaritiesOf sim
            (initCategoryEmbeddings embed st).1.categoryEmbeddings
            (embed (prepareEmailText subject sender content senderName)))).2 < 30
         then "primary"
         else (pyMaxBySnd (similaritiesOf sim
            (initCategoryEmbeddings embed st).1.categoryEmbeddings
            (embed (prepareEmailText subject sender content senderName)))).1) := rfl

lemma classify_labels_eq (embed : String → List ℚ) (sim : List ℚ → List ℚ → ℚ)
    (subject sender content senderName : String) (st : ClassifierState) :
    (classify embed sim subject sender content senderName st).1.labels
      = ((classify embed sim subject sender content senderName st).1.category ::
          ((similaritiesOf sim (initCategoryEmbeddings embed st).1.categoryEmbeddings
            (embed (prepareEmailText subject sender content senderName))).filter
            (fun p => p.1 ≠ (classify embed sim subject sender content senderName st).1.category
              ∧ 40 ≤ p.2 * 150)).map Prod.fst).toFinset := rfl

lemma confidenceFromSimilarity_bounds (s : ℚ) :
    0 ≤ confidenceFromSimilarity s ∧ confidenceFromSimilarity s ≤ 95 := by
  unfold confidenceFromSimilarity pyInt
  have h0 : (0 : ℚ) ≤ min 95 (max 0 (s * 150)) :=
    le_min (by norm_num) (le_max_left _ _)
  have h95 : min (95 : ℚ) (max 0 (s * 150)) ≤ 95 := min_le_left _ _
  rw [if_neg (not_lt.2 h0)]
  refine ⟨Int.floor_nonneg.2 h0, ?_⟩
  have h := Int.floor_le_floor h95
  have h9 : (⌊(95 : ℚ)⌋ : ℤ) = 95 := by norm_num
  omega

lemma classify_confidence_bounds (embed : String → List ℚ) (sim : List ℚ → List ℚ → ℚ)
    (subject sender content senderName : String) (st : ClassifierState) :
    30 ≤ (classify embed sim subject sender content senderName st).1.confidence ∧
    (classify embed sim subject sender content senderName st).1.confidence ≤ 95 := by
  rw [classify_confidence_eq]
  split
  · exact ⟨by norm_num, by norm_num⟩
  · next h =>
    have hb := confidenceFromSimilarity_bounds (pyMaxBySnd (similaritiesOf sim
      (initCategoryEmbeddings embed st).1.categoryEmbeddings
      (embed (prepareEmailText subject sender content senderName)))).2
    omega

/-- Claim C10: every result of `classify` or `classify_batch` has confidence in
`[30, 95]`: the conversion clamps at 95 and any value below 30 is replaced
by the fallback value 50, so confidences in `[0, 30)` or `(95, 100]` never
occur. -/
theorem confidence_range_tight (embed : String → List ℚ) (sim : List ℚ → List ℚ → ℚ)
    (subject sender content senderName : String) (emails : List Email)
    (st : ClassifierState) :
    (30 ≤ (classify embed sim subject sender content senderName st).1.confidence ∧
     (classify embed sim subject sender content senderName st).1.confidence ≤ 95) ∧
    ∀ r ∈ (classifyBatch embed sim emails st).1,
      30 ≤ r.confidence ∧ r.confidence ≤ 95 := by
  refine ⟨classify_confidence_bounds embed sim subject sender content senderName st, ?_⟩
  intro r hr
  by_cases he : emails = []
  · rw [he] at hr
    exact absurd hr (by simp [classifyBatch])
  · rw [classifyBatch_results embed sim emails st he] at hr
    rcases List.mem_map.1 hr with ⟨e, -, rfl⟩
    exact classify_confidence_bounds embed sim e.subject e.sender e.content e.senderName st

set_option maxRecDepth 10000 in
/-- Witness for C10 at a one-element batch. -/
theorem confidence_range_tight_witness :
    ((classifyBatch (fun _ => []) (fun _ _ => (0 : ℚ)) [⟨"", "", "", ""⟩] initialState).1.headD
        ⟨"", 0, ∅, ""⟩ ∈
      (classifyBatch (fun _ => []) (fun _ _ => (0 : ℚ)) [⟨"", "", "", ""⟩] initialState).1) ∧
    30 ≤ ((classifyBatch (fun _ => []) (fun _ _ => (0 : ℚ)) [⟨"", "", "", ""⟩]
        initialState).1.headD ⟨"", 0, ∅, ""⟩).confidence :=
  ⟨by with_unfolding_all decide,
   ((confidence_range_tight (fun _ => []) (fun _ _ => (0 : ℚ)) "" "" "" ""
      [⟨"", "", "", ""⟩] initialState).2 _ (by with_unfolding_all decide)).1⟩

/-- The data-model invariant claimed for `ClassificationResult`: confidence
in `[0, 100]`, non-empty label set containing the category, and only known
category names as labels. -/
def resultInvariant (r : ClassificationResult) : Prop :=
  0 ≤ r.confidence ∧ r.confidence ≤ 100 ∧ r.labels.Nonempty ∧
    r.category ∈ r.labels ∧ ∀ x ∈ r.labels, x ∈ "primary" :: taxonomyOrder

lemma classify_invariant (embed : String → List ℚ) (sim : List ℚ → List ℚ → ℚ)
    (subject sender content senderName : String) (st : ClassifierState)
    (hnames : (initCategoryEmbeddings embed st).1.categoryEmbeddings.map Prod.fst
      = taxonomyOrder) :
    resultInvariant (classify embed sim subject sender content senderName st).1 := by
  have hsimnames : (similaritiesOf sim (initCategoryEmbeddings embed st).1.categoryEmbeddings
      (embed (prepareEmailText subject sender content senderName))).map Prod.fst
        = taxonomyOrder := by
    rw [similaritiesOf_names, hnames]
  have hne : similaritiesOf sim (initCategoryEmbeddings embed st).1.categoryEmbeddings
      (embed (prepareEmailText subject sender content senderName)) ≠ [] := by
    intro h
    rw [h] at hsimnames
    exact absurd hsimnames (by simp [taxonomyOrder])
  have hbounds := classify_confidence_bounds embed sim subject sender content senderName st
  have hcat : (classify embed sim subject sender content senderName st).1.category
      ∈ "primary" :: taxonomyOrder := by
    rw [classify_category_eq]
    split
    · exact List.mem_cons_self _ _
    · refine List.mem_cons_of_mem _ ?_
      rw [← hsimnames]
      exact List.mem_map_of_mem Prod.fst (pyMaxBySnd_mem _ hne)
  refine ⟨by omega, by omega, ?_, ?_, ?_⟩
  · rw [classify_labels_eq, List.toFinset_cons]
    exact Finset.insert_nonempty _ _
  · rw [classify_labels_eq, List.toFinset_cons]
    exact Finset.mem_insert_self _ _
  · intro x hx
    rw [classify_labels_eq] at hx
    rcases List.mem_cons.1 (List.mem_toFinset.1 hx) with h | h
    · exact h ▸ hcat
    · rcases List.mem_map.1 h with ⟨p, hp, rfl⟩
      refine List.mem_cons_of_mem _ ?_
      rw [← hsimnames]
      exact List.mem_map_of_mem Prod.fst (List.mem_of_mem_filter hp)

/-- Claim C2: every result returned by `classify` or `classify_batch` (from the
fresh state or the initialized state) has confidence in `[0, 100]`, a
non-empty label set made of known category names, and its category among
its labels. -/
theorem classification_result_wellformed (embed : String → List ℚ)
    (sim : List ℚ → List ℚ → ℚ) (subject sender content senderName : String)
    (emails : List Email) (st : ClassifierState)
    (hst : st = initialState ∨ st = (initCategoryEmbeddings embed initialState).1) :
    resultInvariant (classify embed sim subject sender content senderName st).1 ∧
    ∀ r ∈ (classifyBatch embed sim emails st).1, resultInvariant r := by
  have hnames : (initCategoryEmbeddings embed st).1.categoryEmbeddings.map Prod.fst
      = taxonomyOrder := by
    rcases hst with rfl | rfl
    · exact initRegistry_names embed
    · rfl
  refine ⟨classify_invariant embed sim subject sender content senderName st hnames, ?_⟩
  intro r hr
  by_cases he : emails = []
  · rw [he] at hr
    exact absurd hr (by simp [classifyBatch])
  · rw [classifyBatch_results embed sim emails st he] at hr
    rcases List.mem_map.1 hr with ⟨e, -, rfl⟩
    exact classify_invariant embed sim e.subject e.sender e.content e.senderName st hnames

/-- Witness for C2: the fresh state satisfies the reachability hypothesis. -/
theorem classification_result_wellformed_witness :
    (initialState = initialState ∨
      initialState = (initCategoryEmbeddings (fun _ => []) initialState).1) ∧
    resultInvariant (classify (fun _ => []) (fun _ _ => (0 : ℚ)) "" "" "" ""
      initialState).1 :=
  ⟨Or.inl rfl,
   (classification_result_wellformed (fun _ => []) (fun _ _ => (0 : ℚ)) "" "" "" "" []
      initialState (Or.inl rfl)).1⟩

lemma classify_labels_mem_iff (embed : String → List ℚ) (sim : List ℚ → List ℚ → ℚ)
    (subject sender content senderName : String) (st : ClassifierState) (x : String) :
    x ∈ (classify embed sim subject sender content senderName st).1.labels ↔
      x = (classify embed sim subject sender content senderName st).1.category ∨
        ∃ p ∈ similaritiesOf sim (initCategoryEmbeddings embed st).1.categoryEmbeddings
            (embed (prepareEmailText subject sender content senderName)),
          p.1 = x ∧
          p.1 ≠ (classify embed sim subject sender content senderName st).1.category ∧
          40 ≤ p.2 * 150 := by
  rw [classify_labels_eq]
  simp only [List.mem_toFinset, List.mem_cons, List.mem_map, List.mem_filter,
    decide_eq_true_eq]
  constructor
  · rintro (h | ⟨p, ⟨hp, hne, hge⟩, rfl⟩)
    · exact Or.inl h
    · exact Or.inr ⟨p, hp, rfl, hne, hge⟩
  · rintro (h | ⟨p, hp, rfl, hne, hge⟩)
    · exact Or.inl h
    · exact Or.inr ⟨p, ⟨hp, hne, hge⟩, rfl⟩

/-- Claim C8: the label set of a classification contains the selected category
and exactly those scored categories, distinct from it, whose similarity
scaled by 150 is at least 40 — nothing else; the same holds for every
result of a batch, via the message it classifies. -/
theorem secondary_labels_exact (embed : String → List ℚ) (sim : List ℚ → List ℚ → ℚ)
    (subject sender content senderName : String) (emails : List Email)
    (st : ClassifierState) (x : String) :
    (x ∈ (classify embed sim subject sender content senderName st).1.labels ↔
      x = (classify embed sim subject sender content senderName st).1.category ∨
        ∃ p ∈ similaritiesOf sim (initCategoryEmbeddings embed st).1.categoryEmbeddings
            (embed (prepareEmailText subject sender content senderName)),
          p.1 = x ∧
          p.1 ≠ (classify embed sim subject sender content senderName st).1.category ∧
          40 ≤ p.2 * 150) ∧
    ∀ r ∈ (classifyBatch embed sim emails st).1, ∃ e ∈ emails,
      (x ∈ r.labels ↔
        x = r.category ∨
          ∃ p ∈ similaritiesOf sim (initCategoryEmbeddings embed st).1.categoryEmbeddings
              (embed (prepareEmailText e.subject e.sender e.content e.senderName)),
            p.1 = x ∧ p.1 ≠ r.category ∧ 40 ≤ p.2 * 150) := by
  refine ⟨classify_labels_mem_iff embed sim subject sender content senderName st x, ?_⟩
  intro r hr
  by_cases he : emails = []
  · rw [he] at hr
    exact absurd hr (by simp [classifyBatch])
  · rw [classifyBatch_results embed sim emails st he] at hr
    rcases List.mem_map.1 hr with ⟨e, hme, rfl⟩
    exact ⟨e, hme, classify_labels_mem_iff embed sim e.subject e.sender e.content
      e.senderName st x⟩

set_option maxRecDepth 10000 in
/-- Witness for C8 at a concrete one-element batch. -/
theorem secondary_labels_exact_witness :
    ((classifyBatch (fun _ => []) (fun _ _ => (1 : ℚ)) [⟨"", "", "", ""⟩] initialState).1.headD
        ⟨"", 0, ∅, ""⟩ ∈
      (classifyBatch (fun _ => []) (fun _ _ => (1 : ℚ)) [⟨"", "", "", ""⟩] initialState).1) ∧
    (∃ e ∈ ([⟨"", "", "", ""⟩] : List Email),
      ("personal" ∈ ((classifyBatch (fun _ => []) (fun _ _ => (1 : ℚ)) [⟨"", "", "", ""⟩]
            initialState).1.headD ⟨"", 0, ∅, ""⟩).labels ↔
        "personal" = ((classifyBatch (fun _ => []) (fun _ _ => (1 : ℚ)) [⟨"", "", "", ""⟩]
            initialState).1.headD ⟨"", 0, ∅, ""⟩).category ∨
          ∃ p ∈ similaritiesOf (fun _ _ => (1 : ℚ))
              (initCategoryEmbeddings (fun _ => []) initialState).1.categoryEmbeddings
              ((fun _ : String => ([] : List ℚ))
                (prepareEmailText e.subject e.sender e.content e.senderName)),
            p.1 = "personal" ∧
            p.1 ≠ ((classifyBatch (fun _ => []) (fun _ _ => (1 : ℚ)) [⟨"", "", "", ""⟩]
              initialState).1.headD ⟨"", 0, ∅, ""⟩).category ∧ 40 ≤ p.2 * 150)) :=
  ⟨by with_unfolding_all decide,
   (secondary_labels_exact (fun _ => []) (fun _ _ => (1 : ℚ)) "" "" "" ""
      [⟨"", "", "", ""⟩] initialState "personal").2 _ (by with_unfolding_all decide)⟩

lemma normSq_nonneg (v : List ℚ) : 0 ≤ normSq v := by
  induction v with
  | nil => exact le_refl 0
  | cons x xs ih =>
    have := mul_self_nonneg x
    unfold normSq
    linarith

lemma dotProduct_self (v : List ℚ) : dotProduct v v = normSq v := by
  induction v with
  | nil => rfl
  | cons x xs ih =>
    unfold dotProduct normSq
    rw [ih]

lemma magnitude_eq_zero_iff (v : List ℚ) : magnitude v = 0 ↔ normSq v = 0 := by
  unfold magnitude
  rw [Real.sqrt_eq_zero (by exact_mod_cast normSq_nonneg v)]
  exact_mod_cast Iff.rfl

/-- Claim C5: `cosine_similarity` is the dot product over the product of the
magnitudes when both are non-zero, is exactly `0` when either magnitude is
zero, and on a vector paired with itself gives exactly `1` (non-zero
magnitude) or `0` (zero magnitude). -/
theorem cosine_similarity_spec (v1 v2 v : List ℚ) :
    (magnitude v1 ≠ 0 → magnitude v2 ≠ 0 →
      cosine_similarity v1 v2
        = ((dotProduct v1 v2 : ℚ) : ℝ) / (magnitude v1 * magnitude v2)) ∧
    (magnitude v1 = 0 ∨ magnitude v2 = 0 → cosine_similarity v1 v2 = 0) ∧
    (magnitude v ≠ 0 → cosine_similarity v v = 1) ∧
    (magnitude v = 0 → cosine_similarity v v = 0) := by
  refine ⟨?_, ?_, ?_, ?_⟩
  · intro h1 h2
    unfold cosine_similarity
    rw [if_neg]
    push_neg
    exact ⟨h1, h2⟩
  · intro h
    unfold cosine_similarity
    rw [if_pos h]
  · intro h
    unfold cosine_similarity
    rw [if_neg (by push_neg; exact ⟨h, h⟩)]
    have hnz : ((normSq v : ℚ) : ℝ) ≠ 0 := by
      intro h0
      exact h ((magnitude_eq_zero_iff v).2 (by exact_mod_cast h0))
    have hmul : magnitude v * magnitude v = ((normSq v : ℚ) : ℝ) := by
      unfold magnitude
      exact Real.mul_self_sqrt (by exact_mod_cast normSq_nonneg v)
    rw [dotProduct_self, hmul]
    exact div_self hnz
  · intro h
    unfold cosine_similarity
    rw [if_pos (Or.inl h)]

/-- Witness for C5 on the concrete vectors `[1]` and `[]`. -/
theorem cosine_similarity_spec_witness :
    magnitude [(1 : ℚ)] ≠ 0 ∧ cosine_similarity [(1 : ℚ)] [(1 : ℚ)] = 1 ∧
    magnitude ([] : List ℚ) = 0 ∧ cosine_similarity ([] : List ℚ) ([] : List ℚ) = 0 := by
  have h1 : magnitude [(1 : ℚ)] ≠ 0 := by
    rw [Ne, magnitude_eq_zero_iff]
    norm_num [normSq]
  have h0 : magnitude ([] : List ℚ) = 0 := by
    rw [magnitude_eq_zero_iff]
    rfl
  exact ⟨h1, (cosine_similarity_spec [(1 : ℚ)] [(1 : ℚ)] [(1 : ℚ)]).2.2.1 h1,
    h0, (cosine_similarity_spec [] [] ([] : List ℚ)).2.2.2 h0⟩
